import Mathlib

/-!
# Verification of the easy-store (DART) bag-processing engine

A shallow embedding of the BagIt validator, manifest parser and profile
conversion code of the APTrust easy-store repository, together with proofs
about the behaviour that the natural-language specification claims.

The JavaScript source is embedded as executable Lean functions.  JavaScript
strings become `String` / `List Char`, JavaScript arrays become `List`,
JavaScript objects used as maps become association lists, `undefined` /
`null` become `Option`, and JavaScript truthiness on strings is modelled
explicitly (`none` and `some ""` are falsy).
-/

namespace EasyStore

/-! ## JavaScript string primitives -/

/-- Whitespace characters recognised by the JavaScript regexp `\s`
(restricted to the ASCII range, which is all the parser ever sees:
lines have already been split on `"\n"`). -/
def isWsChar (c : Char) : Bool :=
  c = ' ' || c = '\t' || c = '\n' || c = '\r' || c = '\x0b' || c = '\x0c'

/-- Embeds `String.prototype.split(/\s+/)` on a list of characters: split at every
maximal run of whitespace.  A leading run contributes an empty first token
and a trailing run an empty last token, exactly as in JavaScript
(`" a b ".split(/\s+/) = ["", "a", "b", ""]`, `"".split(/\s+/) = [""]`). -/
def splitWsCh : List Char → List (List Char)
  | [] => [[]]
  | c :: rest =>
    let ts := splitWsCh rest
    if isWsChar c then
      match rest with
      | [] => [] :: ts
      | d :: _ => if isWsChar d then ts else [] :: ts
    else
      match ts with
      | t :: ts' => (c :: t) :: ts'
      | [] => [[c]]

/-- Embeds `Array.prototype.join(' ')` on character-list tokens. -/
def joinSp (ts : List (List Char)) : List Char :=
  List.intercalate [' '] ts

/-- Embeds `String.prototype.trim()` on a list of characters. -/
def trimCh (cs : List Char) : List Char :=
  ((cs.dropWhile isWsChar).reverse.dropWhile isWsChar).reverse

/-- Embeds `String.prototype.trim()`. -/
def strTrim (s : String) : String :=
  String.mk (trimCh s.toList)

/-- Embeds `String.prototype.startsWith(pre)` (kernel-reducible: core
`String.startsWith` does not evaluate inside `decide`). -/
def strStartsWith (s pre : String) : Bool :=
  pre.toList.isPrefixOf s.toList

/-- Embeds `String.prototype.endsWith(suf)`. -/
def strEndsWith (s suf : String) : Bool :=
  suf.toList.isSuffixOf s.toList

/-- Drop the first `n` characters. -/
def strDrop (s : String) (n : Nat) : String :=
  String.mk (s.toList.drop n)

/-- Drop the last `n` characters. -/
def strDropRight (s : String) (n : Nat) : String :=
  String.mk (s.toList.take (s.toList.length - n))

/-- The length of a string in characters. -/
def strLen (s : String) : Nat :=
  s.toList.length

/-- Split a character list on a single separator character, keeping empty
segments, like `String.prototype.split(sep)`. -/
def splitCh (sep : Char) : List Char → List (List Char)
  | [] => [[]]
  | c :: rest =>
    let ts := splitCh sep rest
    if c = sep then [] :: ts
    else
      match ts with
      | t :: ts' => (c :: t) :: ts'
      | [] => [[c]]

/-- Embeds `String.prototype.split(sep)` for a one-character separator. -/
def strSplitOnChar (sep : Char) (s : String) : List String :=
  (splitCh sep s.toList).map String.mk

/-- Keep the first occurrence of each element, preserving order: the
iteration order of a JavaScript `Set` or of `Object.keys` on a map that
was filled by repeated insertion. -/
def firstDedup {α : Type} [DecidableEq α] : List α → List α :=
  go []
where
  go (seen : List α) : List α → List α
    | [] => []
    | a :: rest => if a ∈ seen then go seen rest else a :: go (a :: seen) rest

/-- JavaScript `parseInt(s, 10)`: skip leading whitespace, read an optional
sign and then a non-empty run of decimal digits; `none` models `NaN`. -/
def parseInt10 (s : String) : Option Int :=
  let cs := s.toList.dropWhile isWsChar
  let (neg, cs) : Bool × List Char :=
    match cs with
    | '-' :: rest => (true, rest)
    | '+' :: rest => (false, rest)
    | _ => (false, cs)
  let digits := cs.takeWhile Char.isDigit
  if digits = [] then none
  else
    let n : Nat := digits.foldl (fun acc c => acc * 10 + (c.toNat - 48)) 0
    some (if neg then -(n : Int) else (n : Int))

/-- Embeds `path.basename(p, ext)`: the final path segment, with the suffix `ext`
removed when present. -/
def basenameExt (p ext : String) : String :=
  let base := (strSplitOnChar '/' p).getLastD p
  if strEndsWith base ext then strDropRight base (strLen ext) else base

/-! ## Key-value collection

`KeyValueCollection` is not under `src/`.  Modelled from the spec:
"Insertion-ordered multimap `string → string` with operations `add`,
`first(key)`, `all(key)`, `keys()` (in insertion order)."  We model it as
the insertion-ordered list of `(key, value)` pairs; `keys()` returns each
distinct key once, in first-insertion order (the order of `Object.keys` on
the backing map), and `all` returns `none` (JavaScript `undefined`) for a
key that was never added. -/

/-- An insertion-ordered multimap from strings to strings. -/
abbrev KVC : Type := List (String × String)

/-- Embeds `KeyValueCollection.add(key, value)`: append a pair. -/
def kvcAdd (kv : KVC) (key value : String) : KVC :=
  kv ++ [(key, value)]

/-- Embeds `KeyValueCollection.first(key)`: the value of the first pair with the
given key, `none` when the key is absent. -/
def kvcFirst (kv : KVC) (key : String) : Option String :=
  (kv.find? (fun p => p.1 = key)).map (·.2)

/-- Embeds `KeyValueCollection.all(key)`: every value stored under the key, in
insertion order; `none` (JavaScript `undefined`) when the key is absent. -/
def kvcAll (kv : KVC) (key : String) : Option (List String) :=
  let vs := (kv.filter (fun p => p.1 = key)).map (·.2)
  if vs = [] then none else some vs

/-- Embeds `KeyValueCollection.keys()`: each distinct key once, in insertion
order. -/
def kvcKeys (kv : KVC) : List String :=
  firstDedup (kv.map (·.1))

end EasyStore

namespace EasyStore

/-! ## Constants (`src/core/constants.js`)

`Constants` is not under `src/`.  Modelled from the spec: §4.A lists the
supported digest algorithms, §3 gives the role-classification regexes
`^manifest-(\w+)\.txt$` and `^tagmanifest-(\w+)\.txt$`, and the validator
source uses `Constants.PAYLOAD_MANIFEST` / `Constants.TAG_MANIFEST` as the
prefixes `manifest` / `tagmanifest` of manifest file names. -/

/-- Embeds `Constants.DIGEST_ALGORITHMS`. -/
def DIGEST_ALGORITHMS : List String :=
  ["md5", "sha1", "sha224", "sha256", "sha384", "sha512"]

/-- Embeds `Constants.PAYLOAD_MANIFEST`. -/
def PAYLOAD_MANIFEST : String := "manifest"

/-- Embeds `Constants.TAG_MANIFEST` . -/
def TAG_MANIFEST : String := "tagmanifest"

/-- A character matched by the regexp class `\w`. -/
def isWordChar (c : Char) : Bool :=
  c.isAlphanum || c = '_'

/-- If `s` matches `^<prefix>-(\w+)\.txt$`, the captured algorithm. -/
def manifestAlgWithPrefix (pre s : String) : Option String :=
  if strStartsWith s (pre ++ "-") && strEndsWith s ".txt" then
    let mid := strDropRight (strDrop s (strLen pre + 1)) 4
    if mid ≠ "" && mid.toList.all isWordChar then some mid else none
  else none

/-! ## BagItFile (`src/bagit/bagit_file.js`)

The `BagItFile` class is not under `src/`.  Modelled from the spec, §3
"BagItFile": a per-file record with `relPath`/`relDestPath`, `size`,
`checksums : map<algorithm, hex-string>` and an optional parsed
`KeyValueCollection`; its role is classified from the relative path by
  matches `^manifest-(\w+)\.txt$` ⇒ manifest,
  matches `^tagmanifest-(\w+)\.txt$` ⇒ tag-manifest,
  begins with `data/` ⇒ payload,
  otherwise ⇒ tag. -/

/-- The in-memory record the validator keeps per file in the bag.  The
validator's `files` hash is keyed by the same relative path that is stored
in `relDestPath`, so the hash is modelled as a list of these records. -/
structure BagItFileM where
  relDestPath : String
  size : Nat := 0
  checksums : KVC := []
  keyValueCollection : Option KVC := none
  deriving DecidableEq, Repr

/-- Embeds `BagItFile.isPayloadManifest()`: the algorithm when the path matches
`^manifest-(\w+)\.txt$`. -/
def payloadManifestAlg (relPath : String) : Option String :=
  manifestAlgWithPrefix PAYLOAD_MANIFEST relPath

/-- Embeds `BagItFile.isTagManifest()`: the algorithm when the path matches
`^tagmanifest-(\w+)\.txt$`. -/
def tagManifestAlg (relPath : String) : Option String :=
  manifestAlgWithPrefix TAG_MANIFEST relPath

/-- Embeds `BagItFile.isPayloadFile()`. -/
def isPayloadPath (relPath : String) : Bool :=
  strStartsWith relPath "data/"

/-- Embeds `BagItFile.isTagFile()`: not a manifest, not a tag manifest, not a
payload file. -/
def isTagPath (relPath : String) : Bool :=
  (payloadManifestAlg relPath).isNone && (tagManifestAlg relPath).isNone
    && !isPayloadPath relPath

/-! ## TagDefinition and BagItProfile (`src/bagit/tag_definition.js`,
`src/bagit/bagit_profile.js`)

Neither class is under `src/` (only their tests are).  Modelled from the
spec, §3 "Profile" and "TagDefinition", with constructor defaults taken
from the profile's test file (`part_002`): a new profile accepts BagIt
versions 0.97/1.0 and `application/tar`, requires sha256, allows every
supported algorithm, allows any tag file, has optional serialization and
17 default tag definitions (2 for `bagit.txt`, 15 for `bag-info.txt`). -/

/-- A tag definition of a BagIt profile. -/
structure TagDefinition where
  tagFile : String
  tagName : String
  required : Bool := false
  values : List String := []
  defaultValue : Option String := none
  userValue : String := ""
  deriving DecidableEq, Repr

/-- The `BagIt-Profile-Info` block of a profile. -/
structure BagItProfileInfo where
  bagItProfileIdentifier : String := ""
  bagItProfileVersion : String := ""
  contactEmail : String := ""
  contactName : String := ""
  externalDescription : String := ""
  sourceOrganization : String := ""
  version : String := ""
  deriving DecidableEq, Repr

/-- A DART BagIt profile (the fields the embedded code reads or writes). -/
structure BagItProfile where
  id : String := "00000000-0000-0000-0000-000000000000"
  name : String := "New BagIt Profile"
  description : String := "New custom BagIt profile"
  acceptBagItVersion : List String := ["0.97", "1.0"]
  acceptSerialization : List String := ["application/tar"]
  allowFetchTxt : Bool := false
  serialization : String := "optional"
  manifestsRequired : List String := ["sha256"]
  manifestsAllowed : List String := DIGEST_ALGORITHMS
  tagManifestsRequired : List String := []
  tagManifestsAllowed : List String := DIGEST_ALGORITHMS
  tagFilesAllowed : List String := ["*"]
  tarDirMustMatchName : Bool := false
  bagItProfileInfo : BagItProfileInfo := {}
  tags : List TagDefinition := []
  deriving DecidableEq, Repr

/-- The 17 tag definitions a `new BagItProfile()` starts with.  Modelled
from the spec (invariant 5: definitions for `bagit.txt` with
`BagIt-Version` and `Tag-File-Character-Encoding`, and for `bag-info.txt`)
and from the counts in the profile test file. -/
def defaultProfileTags : List TagDefinition :=
  [ { tagFile := "bagit.txt", tagName := "BagIt-Version",
      required := true, values := ["0.97", "1.0"] },
    { tagFile := "bagit.txt", tagName := "Tag-File-Character-Encoding",
      required := true, values := ["UTF-8"], defaultValue := some "UTF-8" } ]
  ++ ["Source-Organization", "Organization-Address", "Contact-Name",
      "Contact-Phone", "Contact-Email", "Bagging-Date", "Bagging-Software",
      "Bag-Count", "Bag-Size", "Bag-Group-Identifier",
      "Internal-Sender-Identifier", "Internal-Sender-Description",
      "External-Description", "External-Identifier", "Payload-Oxum"].map
      (fun n => { tagFile := "bag-info.txt", tagName := n })

/-- Embeds `new BagItProfile()`: the default profile. -/
def defaultProfile : BagItProfile :=
  { tags := defaultProfileTags }

/-- Embeds `BagItProfile.findMatchingTags('tagName', name)` — the only property
the embedded conversion code ever queries is `tagName`. -/
def findMatchingTagsByName (p : BagItProfile) (name : String) : List TagDefinition :=
  p.tags.filter (fun t => t.tagName = name)

/-- Embeds `BagItProfile.firstMatchingTag('tagName', name)`. -/
def firstMatchingTagByName (p : BagItProfile) (name : String) : Option TagDefinition :=
  p.tags.find? (fun t => t.tagName = name)

/-- Embeds `BagItProfile.tagsGroupedByFile()`: the distinct tag-file names of the
profile's tag definitions, in first-occurrence order (the iteration order
of `Object.keys` over the grouped object).  Modelled from the spec
(§4.E.6 groups `TagDefinition`s by tag file). -/
def tagFileNames (p : BagItProfile) : List String :=
  firstDedup (p.tags.map (·.tagFile))

/-- The tag definitions grouped under one file name. -/
def tagsForFile (p : BagItProfile) (filename : String) : List TagDefinition :=
  p.tags.filter (fun t => t.tagFile = filename)

/-- Embeds `BagItProfile.validate()`: the profile self-check.  Modelled from the
spec, §3 "Invariants of a well-formed Profile" (1–6), with the error
strings of the profile test file where the test shows them.  Returns the
list of error messages; the profile is valid iff the list is empty. -/
def profileValidationErrors (p : BagItProfile) : List String :=
  (if p.id = "" then ["Id cannot be empty."] else [])
  ++ (if p.name = "" then ["Name cannot be empty."] else [])
  ++ (if p.acceptBagItVersion = [] then
        ["Profile must accept at least one BagIt version."] else [])
  ++ (if p.manifestsAllowed = [] then
        ["Profile must allow at least one payload manifest algorithm."] else [])
  ++ (if p.manifestsRequired.all (fun a => a ∈ p.manifestsAllowed) then []
      else ["Required manifest algorithms must be allowed."])
  ++ (if p.tagManifestsRequired.all (fun a => a ∈ p.tagManifestsAllowed) then []
      else ["Required tag manifest algorithms must be allowed."])
  ++ (if (p.tags.filter (fun t => t.tagFile = "bagit.txt")) = [] ||
         (p.tags.filter (fun t => t.tagFile = "bag-info.txt")) = [] then
        ["Profile lacks requirements for bagit.txt or bag-info.txt tag file."] else [])
  ++ (if p.serialization = "required" || p.serialization = "optional"
         || p.serialization = "forbidden" then []
      else ["Serialization must be one of: required, optional, forbidden."])
  ++ (if p.tags.all (fun t =>
          t.values = [] || t.userValue = "" || t.userValue ∈ t.values) then []
      else ["Tag userValue must be among the allowed values."])

/-- Embeds `BagItProfile.chooseManifestAlgorithms(which)`.  The method is not
under `src/`.  Modelled from the spec, §4.G "Manifest chooser":
1. the intersection of `manifestsRequired` and `tagManifestsRequired`
   when non-empty, 2. else `manifestsRequired` when non-empty, 3. else
`tagManifestsRequired` when non-empty, 4. else the highest-strength
algorithm of `manifestsAllowed` in the order
`sha512 > sha256 > sha384 > sha224 > sha1 > md5`, 5. else `["sha512"]`. -/
def chooseManifestAlgorithms (p : BagItProfile) (_which : String) : List String :=
  let inter := p.manifestsRequired.filter (fun a => a ∈ p.tagManifestsRequired)
  if inter ≠ [] then inter
  else if p.manifestsRequired ≠ [] then p.manifestsRequired
  else if p.tagManifestsRequired ≠ [] then p.tagManifestsRequired
  else
    match ["sha512", "sha256", "sha384", "sha224", "sha1", "md5"].find?
        (fun a => a ∈ p.manifestsAllowed) with
    | some a => [a]
    | none => ["sha512"]

end EasyStore

namespace EasyStore

/-! ## Validator state (`src/unnamed/part_001`, class `Validator`)

The validator's mutable instance fields, as gathered by the time the
verification phase runs.  `files` is the `Validator.files` hash; since
`_addBagItFile` always keys it by the file's own `relDestPath`, the hash
is modelled as the insertion-ordered list of the `BagItFileM` records.
`bagIsDirectory` models `fs.statSync(pathToBag).isDirectory()`. -/
structure ValidatorState where
  pathToBag : String
  profile : BagItProfile
  disableSerializationCheck : Bool := false
  bagIsDirectory : Bool := true
  files : List BagItFileM := []
  manifestAlgorithmsFoundInBag : List String := []
  tagManifestAlgorithmsFoundInBag : List String := []
  bagRoot : Option String := none
  deriving DecidableEq, Repr

/-- Embeds `Validator.readingFromTar()`. -/
def readingFromTar (st : ValidatorState) : Bool :=
  strEndsWith st.pathToBag ".tar"

/-- Embeds `Validator.payloadFiles()` (the order of `Object.values` is the
insertion order of the string-keyed `files` hash). -/
def payloadFiles (st : ValidatorState) : List BagItFileM :=
  st.files.filter (fun f => isPayloadPath f.relDestPath)

/-- Embeds `Validator.payloadManifests()`. -/
def payloadManifests (st : ValidatorState) : List BagItFileM :=
  st.files.filter (fun f => (payloadManifestAlg f.relDestPath).isSome)

/-- Embeds `Validator.tagFiles()`. -/
def tagFiles (st : ValidatorState) : List BagItFileM :=
  st.files.filter (fun f => isTagPath f.relDestPath)

/-- Embeds `Validator.tagManifests()`. -/
def tagManifests (st : ValidatorState) : List BagItFileM :=
  st.files.filter (fun f => (tagManifestAlg f.relDestPath).isSome)

/-- Embeds `this.files[name]` lookup. -/
def findFile (st : ValidatorState) (name : String) : Option BagItFileM :=
  st.files.find? (fun f => f.relDestPath = name)

/-- Embeds `Validator._cleanEntryRelPath(relPath)`: when reading from a tar,
strip one leading `<bagname>/` (the regexp `^<name>/` replaced once), then
strip one trailing slash (the regexp `/\/$/`). -/
def cleanEntryRelPath (pathToBag relPath : String) : String :=
  let clean :=
    if strEndsWith pathToBag ".tar" then
      let pre := basenameExt pathToBag ".tar" ++ "/"
      if strStartsWith relPath pre then strDrop relPath (strLen pre) else relPath
    else relPath
  if strEndsWith clean "/" then strDropRight clean 1 else clean

/-- Embeds `Util.isEmpty(s)`.  The `Util` class is not under `src/`.  Modelled
from the spec (§4.E.5 calls a pattern "empty"): a string is empty when it
trims to nothing. -/
def utilIsEmpty (s : String) : Bool :=
  strTrim s = ""

/-! ## Validator verification checks (`src/unnamed/part_001`) -/

/-- Embeds `Validator._validateRequiredManifests(manifestType)`. -/
def validateRequiredManifests (st : ValidatorState) (manifestType : String) : List String :=
  let manifestList :=
    if manifestType = TAG_MANIFEST then st.profile.tagManifestsRequired
    else st.profile.manifestsRequired
  manifestList.filterMap fun alg =>
    let name := manifestType ++ "-" ++ alg ++ ".txt"
    if (findFile st name).isNone then
      some ("Bag is missing required " ++ manifestType ++ " " ++ name)
    else none

/-- Embeds `Validator._validateAllowedManifests(manifestType)`. -/
def validateAllowedManifests (st : ValidatorState) (manifestType : String) : List String :=
  let allowed :=
    if manifestType = TAG_MANIFEST then st.profile.tagManifestsAllowed
    else st.profile.manifestsAllowed
  let foundInBag :=
    if manifestType = TAG_MANIFEST then st.tagManifestAlgorithmsFoundInBag
    else st.manifestAlgorithmsFoundInBag
  foundInBag.filterMap fun alg =>
    if alg ∈ allowed then none
    else some ("Bag includes " ++ manifestType ++ " " ++ alg ++
      ", which is not in the list of allowed " ++ manifestType ++ "s")

/-- Embeds `Validator._validateAllowedTagFiles()`.  The external `minimatch`
glob library is abstracted as the parameter `mm pattern-target`;
every theorem below either holds for all `mm` or instantiates it on
literal patterns (no glob metacharacters), where `minimatch` is string
equality. -/
def validateAllowedTagFiles (mm : String → String → Bool) (st : ValidatorState) : List String :=
  let allowed := st.profile.tagFilesAllowed
  (tagFiles st).filterMap fun file =>
    if file.relDestPath = "bagit.txt" then none
    else
      let concrete := allowed.filter (fun pat => !(utilIsEmpty pat || strTrim pat = "*"))
      let fileWasTested := concrete ≠ []
      let matchesAllowedPattern := concrete.any (fun pat => mm file.relDestPath pat)
      if fileWasTested && !matchesAllowedPattern then
        some ("Tag file " ++ file.relDestPath ++ " is not in the list of allowed tag files.")
      else none

/-- The body of the outer loop of
`Validator._validateManifestEntries(manifestType)`: the errors recorded
for one manifest file.  `undefined` interpolated into a template string
prints as `undefined`. -/
def manifestEntryErrors (files : List BagItFileM) (manifest : BagItFileM) : List String :=
  let algorithm :=
    match strSplitOnChar '-' (basenameExt manifest.relDestPath ".txt") with
    | _ :: a :: _ => a
    | _ => "undefined"
  let kv := manifest.keyValueCollection.getD []
  (kvcKeys kv).flatMap fun filename =>
    match files.find? (fun f => f.relDestPath = filename) with
    | none => ["File '" ++ filename ++ "' in " ++ manifest.relDestPath ++ " is missing from bag."]
    | some bagItFile =>
      let checksumInManifest := (kvcFirst kv filename).getD "undefined"
      let calculatedChecksum := kvcFirst bagItFile.checksums algorithm
      if calculatedChecksum = some checksumInManifest then []
      else ["Bad " ++ algorithm ++ " digest for '" ++ filename ++ "': manifest says '" ++
        checksumInManifest ++ "', file digest is '" ++ calculatedChecksum.getD "undefined" ++ "'."]

/-- Embeds `Validator._validateManifestEntries(manifestType)`. -/
def validateManifestEntries (st : ValidatorState) (manifestType : String) : List String :=
  let manifests :=
    if manifestType = TAG_MANIFEST then tagManifests st else payloadManifests st
  manifests.flatMap (manifestEntryErrors st.files)

/-- Embeds `Validator._validateNoExtraneousPayloadFiles()`.  The guard is the
JavaScript truthiness test `!manifest.keyValueCollection.first(relPath)`,
which holds both when the key is absent (`undefined`) and when its first
value is the empty string. -/
def validateNoExtraneousPayloadFiles (st : ValidatorState) : List String :=
  (payloadManifests st).flatMap fun manifest =>
    (payloadFiles st).filterMap fun f =>
      let v := kvcFirst (manifest.keyValueCollection.getD []) f.relDestPath
      if v = none || v = some "" then
        some ("Payload file " ++ f.relDestPath ++ " not found in " ++ manifest.relDestPath)
      else none

/-- Embeds `parseInt(x, 10)` where `x` may be `undefined` (an out-of-range array
index): `parseInt(undefined, 10)` is `NaN`. -/
def jsParseIntOpt (o : Option String) : Option Int :=
  o.bind parseInt10

/-- The string interpolation of a JavaScript number that may be `NaN`. -/
def renderNum (o : Option Int) : String :=
  match o with
  | none => "NaN"
  | some i => toString i

/-- Embeds `Validator._validatePayloadOxum()`.  `if (oxum)` is a truthiness test,
so an empty-string tag value skips the comparison like an absent tag. -/
def validatePayloadOxum (st : ValidatorState) : List String :=
  match findFile st "bag-info.txt" with
  | none => []
  | some bagInfo =>
    match bagInfo.keyValueCollection with
    | none => []
    | some kv =>
      match kvcFirst kv "Payload-Oxum" with
      | none => []
      | some oxum =>
        if oxum = "" then []
        else
          let parts := strSplitOnChar '.' oxum
          let oxumBytes := jsParseIntOpt parts[0]?
          let oxumFiles := jsParseIntOpt parts[1]?
          let fileCount := (payloadFiles st).length
          let byteCount := ((payloadFiles st).map (·.size)).sum
          (if oxumFiles ≠ some (fileCount : Int) then
            ["Payload-Oxum says there should be " ++ renderNum oxumFiles ++
             " files in the payload, but validator found " ++ toString fileCount ++ "."]
           else [])
          ++ (if oxumBytes ≠ some (byteCount : Int) then
            ["Payload-Oxum says there should be " ++ renderNum oxumBytes ++
             " bytes in the payload, but validator found " ++ toString byteCount ++ "."]
           else [])

/-- Embeds `Util.listContains(list, value)`.  Not under `src/`; modelled from the
spec (§4.E.6: "every present value must be contained in it"). -/
def utilListContains (l : List String) (v : String) : Bool :=
  v ∈ l

/-- Embeds `Validator._validateTagsInFile(filename, tagFile)` for a tag file
whose parsed collection is `kv`. -/
def validateTagsInFile (p : BagItProfile) (filename : String) (kv : KVC) : List String :=
  (tagsForFile p filename).flatMap fun tagDef =>
    match kvcAll kv tagDef.tagName with
    | none =>
      if tagDef.required then
        ["Required tag " ++ tagDef.tagName ++ " is missing from " ++ filename]
      else []
    | some parsedTagValues =>
      parsedTagValues.flatMap fun value =>
        if tagDef.required && value = "" then
          ["Value for tag '" ++ tagDef.tagName ++ "' in " ++ filename ++ " is missing."]
        else if tagDef.values ≠ [] && !utilListContains tagDef.values value then
          ["Tag '" ++ tagDef.tagName ++ "' in " ++ filename ++ " contains illegal value '" ++
           value ++ "'. [Allowed: " ++ String.intercalate ", " tagDef.values ++ "]"]
        else []

/-- Embeds `Validator._validateTags()`. -/
def validateTags (st : ValidatorState) : List String :=
  (tagFileNames st.profile).flatMap fun filename =>
    match findFile st filename with
    | none => ["Required tag file " ++ filename ++ " is missing"]
    | some tagFile =>
      match tagFile.keyValueCollection with
      | none => ["Tag file " ++ filename ++ " has no data"]
      | some kv => validateTagsInFile st.profile filename kv

/-- Embeds `Validator._validateUntarDirectory()`: `(okToProceed, errors)`.
`null` interpolated into a template string prints as `null`. -/
def validateUntarDirectory (st : ValidatorState) : Bool × List String :=
  if readingFromTar st && st.profile.tarDirMustMatchName then
    let tarFileName := basenameExt st.pathToBag ".tar"
    if st.bagRoot ≠ some tarFileName then
      (false, ["Bag should untar to directory '" ++ tarFileName ++ "', not '" ++
               st.bagRoot.getD "null" ++ "'"])
    else (true, [])
  else (true, [])

/-- Embeds `Validator._getCryptoHashes(bagItFile)`, reduced to the list of
algorithms it wires up (one hasher per algorithm): the JavaScript `Set`
built from `m.concat(t, f).filter(alg => alg != '')`, iterated in
insertion order.  Note that `f` is `this.manifestAlgorithmsFoundInBag`
only. -/
def getCryptoHashAlgorithms (st : ValidatorState) : List String :=
  let m := chooseManifestAlgorithms st.profile "manifest"
  let t := chooseManifestAlgorithms st.profile "tagmanifest"
  let f := st.manifestAlgorithmsFoundInBag
  firstDedup ((m ++ t ++ f).filter (fun alg => alg ≠ ""))

end EasyStore

namespace EasyStore

/-! ## Serialization and profile gates (`src/unnamed/part_001`) -/

/-- Embeds `path.extname(p)`: the final `.ext` of the last path segment; empty
for no dot and for a leading-dot-only name. -/
def extnameJs (p : String) : String :=
  let base := (strSplitOnChar '/' p).getLastD p
  let cs := base.toList
  let afterLast := (cs.reverse.takeWhile (fun c => c ≠ '.')).reverse
  if afterLast.length = cs.length then ""
  else if cs.length - afterLast.length - 1 = 0 then ""
  else String.mk ('.' :: afterLast)

/-- Embeds `Constants.SERIALIZATION_FORMATS[mimetype]` applied to the bag path:
`none` models an `undefined` regexp for an unknown MIME type.  The
mapping is not under `src/`; modelled from the spec, §4.E.1
("Built-in mapping"). -/
def serializationFormatMatch (mimetype path : String) : Option Bool :=
  if mimetype = "application/tar" then some (strEndsWith path ".tar")
  else if mimetype = "application/zip" then some (strEndsWith path ".zip")
  else if mimetype = "application/gzip" then
    some (strEndsWith path ".gzip" || strEndsWith path ".gz")
  else if mimetype = "application/tar+gzip" then
    some (strEndsWith path ".tgz" || strEndsWith path ".tar.gz")
  else if mimetype = "application/x-7z-compressed" then some (strEndsWith path ".7z")
  else if mimetype = "application/x-rar" then some (strEndsWith path ".rar")
  else none

/-- Embeds `Validator._validateSerializationFormat()`. -/
def validateSerializationFormat (st : ValidatorState) : Bool :=
  st.profile.acceptSerialization.any
    (fun mimetype => (serializationFormatMatch mimetype st.pathToBag).getD false)

/-- Embeds `Validator._validateSerialization()`: `(validFormat, errors pushed)`. -/
def validateSerialization (st : ValidatorState) : Bool × List String :=
  if st.disableSerializationCheck then (true, [])
  else
    let bagIsDirectory := st.bagIsDirectory
    let step1 : Bool × Bool × List String :=
      if st.profile.serialization = "required" then
        if bagIsDirectory then
          (false, true, ["Profile says bag must be serialized, but it is a directory."])
        else (true, true, [])
      else if st.profile.serialization = "forbidden" then
        if !bagIsDirectory then
          (false, false, ["Profile says bag must not be serialized, but bag is not a directory."])
        else (true, true, [])
      else (true, true, [])
    let (validFormat, checkSerializationFormat, errs) := step1
    if !bagIsDirectory && checkSerializationFormat && !validateSerializationFormat st then
      (false, errs ++ ["Bag has extension " ++ extnameJs st.pathToBag ++
        ", but profile says it must be serialized as of one of the following types: " ++
        String.intercalate ", " st.profile.acceptSerialization ++ "."])
    else (validFormat, errs)

/-- Embeds `Validator._validateProfile()`: the profile's own errors, copied with
the `BagItProfile: ` prefix; the profile passes iff this is empty. -/
def validateProfileErrors (p : BagItProfile) : List String :=
  (profileValidationErrors p).map (fun e => "BagItProfile: " ++ e)

/-! ## Initial scan and run orchestration (`src/unnamed/part_001`,
`validate`, `_scanBag`, `_readBag`, `_validateFormatAndContents`)

The reader is an external plugin that emits `entry`, `error` and `end`
events; a run of the reader is modelled as the list of events it emits
before its `end`.  The read pass additionally computes checksums and
parses manifests by piping each entry's bytes through hashers and
parsers; the resulting `files` map is a parameter of the run environment
(`filesRead`), since byte-level hashing is outside this model.  Per-file
progress (`task add` / `task checksum`) events are elided from the event
trace; `validateStart`, phase markers, `error` events and `end` are kept. -/

/-- One event emitted by a reader before its `end` event. -/
inductive ReaderEvent where
  | rerror (msg : String)
  | rentry (relPath : String)
  deriving DecidableEq, Repr

/-- What `_scanBag` has accumulated when the scan reader emits `end`. -/
structure ScanState where
  initialFileCount : Nat := 0
  bagRoot : Option String := none
  manifestAlgs : List String := []
  tagManifestAlgs : List String := []
  errorEvents : List String := []
  deriving DecidableEq, Repr

/-- The `entry` / `error` handlers `_scanBag` attaches to its reader,
applied to one reader event. -/
def scanStep (pathToBag : String) (s : ScanState) (ev : ReaderEvent) : ScanState :=
  match ev with
  | .rerror m => { s with errorEvents := s.errorEvents ++ [m] }
  | .rentry entryRelPath =>
    let s := { s with initialFileCount := s.initialFileCount + 1 }
    let s :=
      if s.bagRoot = none && strEndsWith pathToBag ".tar" then
        { s with bagRoot := some ((strSplitOnChar '/' entryRelPath).headD entryRelPath) }
      else s
    let relPath := cleanEntryRelPath pathToBag entryRelPath
    match payloadManifestAlg relPath with
    | some alg =>
      if alg ∈ s.manifestAlgs then s
      else { s with manifestAlgs := s.manifestAlgs ++ [alg] }
    | none =>
      match tagManifestAlg relPath with
      | some alg =>
        if alg ∈ s.tagManifestAlgs then s
        else { s with tagManifestAlgs := s.tagManifestAlgs ++ [alg] }
      | none => s

/-- The whole scan pass: the handlers folded over the reader's events. -/
def runScanEvents (pathToBag : String) (events : List ReaderEvent) : ScanState :=
  events.foldl (scanStep pathToBag) {}

/-- An observable event of a validation run. -/
inductive VEvent where
  | validateStart
  | task (kind : String)
  | errorEv (msg : String)
  | endEv
  deriving DecidableEq, Repr

/-- The environment of one validation run: the filesystem facts, the
profile, and the behaviour of the two reader passes. -/
structure RunEnv where
  pathToBag : String
  pathExists : Bool := true
  bagIsDirectory : Bool := true
  profile : BagItProfile
  disableSerializationCheck : Bool := false
  scanEvents : List ReaderEvent := []
  readErrors : List String := []
  filesRead : List BagItFileM := []
  deriving Repr

/-- The outcome of a validation run: the accumulated `errors` list, the
emitted events, and which phases ran. -/
structure RunResult where
  errors : List String
  events : List VEvent
  scanRan : Bool
  readRan : Bool
  contentRan : Bool
  deriving DecidableEq, Repr

/-- Embeds `Validator._validateFormatAndContents()` without its final `end`
emit: the errors pushed by the verification phase. -/
def validateFormatAndContents (mm : String → String → Bool) (st : ValidatorState) : List String :=
  let untar := validateUntarDirectory st
  if untar.1 then
    validateRequiredManifests st PAYLOAD_MANIFEST
    ++ validateRequiredManifests st TAG_MANIFEST
    ++ validateAllowedManifests st PAYLOAD_MANIFEST
    ++ validateAllowedManifests st TAG_MANIFEST
    ++ validateAllowedTagFiles mm st
    ++ validateManifestEntries st PAYLOAD_MANIFEST
    ++ validateManifestEntries st TAG_MANIFEST
    ++ validateNoExtraneousPayloadFiles st
    ++ validatePayloadOxum st
    ++ validateTags st
  else untar.2

/-- The validator as constructed for the run, before any reading. -/
def initialState (env : RunEnv) : ValidatorState :=
  { pathToBag := env.pathToBag, profile := env.profile,
    disableSerializationCheck := env.disableSerializationCheck,
    bagIsDirectory := env.bagIsDirectory }

/-- The validator state once the scan pass, the read pass and the
completion barrier have finished, ready for the verification phase. -/
def gatheredState (env : RunEnv) : ValidatorState :=
  let scan := runScanEvents env.pathToBag env.scanEvents
  { initialState env with
      files := env.filesRead,
      manifestAlgorithmsFoundInBag := scan.manifestAlgs,
      tagManifestAlgorithmsFoundInBag := scan.tagManifestAlgs,
      bagRoot := scan.bagRoot }

/-- Embeds `Validator.validate()` and the phases it triggers, run to quiescence:
the three terminal gates, then scan, read, completion barrier and
verification.  Reader `error` events are re-emitted as validator `error`
events by the handlers in `_scanBag` and `_readBag`; the run proceeds to
the next phase when each reader emits `end` (here: when its event list is
exhausted). -/
def runValidation (mm : String → String → Bool) (env : RunEnv) : RunResult :=
  let ev0 := [VEvent.validateStart]
  if !env.pathExists then
    let msg := "File does not exist at " ++ env.pathToBag
    ⟨[msg], ev0 ++ [.errorEv msg, .endEv], false, false, false⟩
  else
    let perrs := validateProfileErrors env.profile
    if perrs ≠ [] then
      ⟨perrs, ev0 ++ [.errorEv (String.intercalate " " perrs), .endEv], false, false, false⟩
    else
      let ser := validateSerialization (initialState env)
      if !ser.1 then
        ⟨ser.2, ev0 ++ [.errorEv (String.intercalate " " ser.2), .endEv], false, false, false⟩
      else
        let scan := runScanEvents env.pathToBag env.scanEvents
        let cerrs := validateFormatAndContents mm (gatheredState env)
        ⟨ser.2 ++ cerrs,
         ev0 ++ [.task "start"] ++ scan.errorEvents.map .errorEv
           ++ env.readErrors.map .errorEv ++ [.task "read"] ++ [.endEv],
         true, true, true⟩

end EasyStore

namespace EasyStore

/-! ## ManifestParser (`src/unnamed/part_008`, class `ManifestParser`)

The streaming parser receives the manifest's bytes in chunks through its
`data` handler; each complete line is split on the regexp `/\s+/`, the
first token (trimmed) becomes the fixity value and the remaining tokens,
re-joined with single spaces and trimmed, become the file-name key. -/

/-- The `(key, value)` pair the parser adds for one complete line:
`parts = line.split(/\s+/)`, `value = parts.shift().trim()`,
`key = parts.join(' ').trim()`. -/
def manifestLineEntry (line : String) : String × String :=
  match splitWsCh line.toList with
  | p :: ps => (String.mk (trimCh (joinSp ps)), String.mk (trimCh p))
  | [] => ("", "")

/-- The loop body of the parser's `data` handler, iterating over the
segments of `data.split("\n")` with their indices.  The first segment is
prefixed with the held-back fragment of the previous chunk; a final
segment not terminated by a newline is held back as the new fragment;
every segment with index `< lastIndex` is parsed as a complete line. -/
def manifestChunkGo (endsNl : Bool) (lastIndex : Nat) :
    Nat → String → KVC → List String → String × KVC
  | _, frag, kvc, [] => (frag, kvc)
  | i, frag, kvc, line :: rest =>
    let fl : String × String := if i = 0 then (frag ++ line, "") else (line, frag)
    let line := fl.1
    let frag := fl.2
    if i ≠ 0 && i = lastIndex && !endsNl then
      manifestChunkGo endsNl lastIndex (i + 1) line kvc rest
    else
      let kvc :=
        if i < lastIndex then kvcAdd kvc (manifestLineEntry line).1 (manifestLineEntry line).2
        else kvc
      manifestChunkGo endsNl lastIndex (i + 1) frag kvc rest

/-- The parser's `data` handler applied to one chunk: split on `"\n"` and
run the loop, returning the new held-back fragment and collection. -/
def manifestParserChunk (frag : String) (kvc : KVC) (data : String) : String × KVC :=
  let lines := strSplitOnChar '\n' data
  manifestChunkGo (strEndsWith data "\n") (lines.length - 1) 0 frag kvc lines

/-- A manifest file delivered to the parser as a single chunk (the `end`
handler of the stream does nothing). -/
def parseManifest (data : String) : KVC :=
  (manifestParserChunk "" [] data).2

/-- The claim's reading of a manifest line, defined from the spec's words
for comparison with the parser: "everything after the first whitespace
run is the path", the path "preserv[ed] exactly as written". -/
def specPathAfterFirstWsRun (cs : List Char) : List Char :=
  (cs.dropWhile (fun c => !isWsChar c)).dropWhile isWsChar

/-- The spec's reading of the digest: the first whitespace-separated
token of the line. -/
def specFirstToken (cs : List Char) : List Char :=
  cs.takeWhile (fun c => !isWsChar c)

/-! ## Profile conversion (`src/bagit/bagit_util.js`) -/

/-- A `tagName → {required, values}` entry of the standard schema's
`Bag-Info` block; `values` is present only when the exporter saw a
non-empty enumeration. -/
structure StdTagSpec where
  required : Bool := false
  values : Option (List String) := none
  deriving DecidableEq, Repr

/-- The community "standard" BagIt profile object, with the exact key set
`profileToStandardObject` produces.  `Bag-Info` is a JavaScript object
filled by keyed assignment: modelled as an association list where a
repeated key keeps its first position and takes the last value. -/
structure StdObj where
  acceptBagItVersion : List String
  acceptSerialization : List String
  allowFetchTxt : Bool
  serialization : String
  manifestsRequired : List String
  manifestsAllowed : List String
  tagManifestsRequired : List String
  tagManifestsAllowed : List String
  tagFilesAllowed : List String
  profileInfo : BagItProfileInfo
  bagInfo : List (String × StdTagSpec)
  tagFilesRequired : List String
  deriving DecidableEq, Repr

/-- Keyed assignment `obj[k] = v` on a JavaScript object modelled as an
association list: an existing key keeps its position and takes the new
value; a new key is appended. -/
def objUpsert (l : List (String × StdTagSpec)) (k : String) (v : StdTagSpec) :
    List (String × StdTagSpec) :=
  if l.any (fun p => p.1 = k) then
    l.map (fun p => if p.1 = k then (k, v) else p)
  else l ++ [(k, v)]

/-- The assignment `p.firstMatchingTag("tagName", "Bagging-Software").values
= ["DART", "TRAD"]` in `profileToStandardObject`: overwrite the values of
the first matching tag definition. -/
def overwriteFirstBaggingSoftware : List TagDefinition → List TagDefinition
  | [] => []
  | t :: rest =>
    if t.tagName = "Bagging-Software" then
      { t with values := ["DART", "TRAD"] } :: rest
    else t :: overwriteFirstBaggingSoftware rest

/-- The tag loop of `profileToStandardObject`, folded over the (already
mutated) tag definitions: `bagit.txt` tags are skipped, `bag-info.txt`
tags become `Bag-Info` entries (with `values` only when non-empty), and a
required tag in any other file appends that file once to
`Tag-Files-Required`. -/
def exportTagLoop (tags : List TagDefinition) :
    List (String × StdTagSpec) × List String :=
  tags.foldl
    (fun acc t =>
      if t.tagFile = "bagit.txt" then acc
      else if t.tagFile = "bag-info.txt" then
        (objUpsert acc.1 t.tagName
          { required := t.required,
            values := if t.values ≠ [] then some t.values else none },
         acc.2)
      else if t.required = true && t.tagFile ∉ acc.2 then
        (acc.1, acc.2 ++ [t.tagFile])
      else acc)
    ([], [])

/-- Embeds `BagItUtil.profileToStandardObject(p)`.  The function first assigns
`["DART", "TRAD"]` to the `values` of the profile's own `Bagging-Software`
tag definition — a mutation of its input — and then builds the standard
object from the mutated profile.  The result is the produced object
together with the profile as it is left after the call; `none` models the
`TypeError` thrown when the profile has no `Bagging-Software` tag. -/
def profileToStandardObject (p : BagItProfile) : Option (StdObj × BagItProfile) :=
  match firstMatchingTagByName p "Bagging-Software" with
  | none => none
  | some _ =>
    let p' : BagItProfile := { p with tags := overwriteFirstBaggingSoftware p.tags }
    let tagInfo := exportTagLoop p'.tags
    some
      ({ acceptBagItVersion := p'.acceptBagItVersion,
         acceptSerialization := p'.acceptSerialization,
         allowFetchTxt := p'.allowFetchTxt,
         serialization := p'.serialization,
         manifestsRequired := p'.manifestsRequired,
         manifestsAllowed := p'.manifestsAllowed,
         tagManifestsRequired := p'.tagManifestsRequired,
         tagManifestsAllowed := p'.tagManifestsAllowed,
         tagFilesAllowed := p'.tagFilesAllowed,
         profileInfo := p'.bagItProfileInfo,
         bagInfo := tagInfo.1,
         tagFilesRequired := tagInfo.2 }, p')

/-- The per-tag mutation of the import loop: `required`, `values` and
`defaultValue` are overwritten from the standard entry; a `values`
enumeration of size 1 seeds `defaultValue`. -/
def importApplyTagSpec (spec : StdTagSpec) (t : TagDefinition) : TagDefinition :=
  let t := { t with required := spec.required, values := spec.values.getD [],
                    defaultValue := none }
  match spec.values with
  | some [v] => { t with defaultValue := some v }
  | _ => t

/-- Mutate the first tag definition with the given name in place. -/
def mutateFirstByName (name : String) (f : TagDefinition → TagDefinition) :
    List TagDefinition → List TagDefinition
  | [] => []
  | t :: rest =>
    if t.tagName = name then f t :: rest
    else t :: mutateFirstByName name f rest

/-- One iteration of the `Bag-Info` loop of `profileFromStandardObject`.
Note the source's `.filter(t => t.tagFile = "bag-info.txt")` uses `=`
(assignment), so every tag definition whose `tagName` matches has its
`tagFile` reassigned to `bag-info.txt` and every match is kept; the first
match is then mutated, or a fresh `bag-info.txt` definition is appended
when there is no match. -/
def importBagInfoTag (tags : List TagDefinition) (entry : String × StdTagSpec) :
    List TagDefinition :=
  let tagName := entry.1
  let spec := entry.2
  let anyMatch := tags.any (fun t => t.tagName = tagName)
  let tags := tags.map
    (fun t => if t.tagName = tagName then { t with tagFile := "bag-info.txt" } else t)
  if anyMatch then
    mutateFirstByName tagName (importApplyTagSpec spec) tags
  else
    tags ++ [importApplyTagSpec spec { tagFile := "bag-info.txt", tagName := tagName }]

/-- Embeds `BagItUtil.profileFromStandardObject(obj)`.  The `|| default`
fallbacks of the source fire only for absent JSON keys; `StdObj` models
the full key set the exporter produces (an empty array is truthy in
JavaScript, so an empty list does not trigger a fallback). -/
def profileFromStandardObject (obj : StdObj) : BagItProfile :=
  let p := defaultProfile
  let p : BagItProfile :=
    { p with
      name := obj.profileInfo.externalDescription,
      description := "Imported from " ++ obj.profileInfo.bagItProfileIdentifier,
      acceptBagItVersion := obj.acceptBagItVersion,
      acceptSerialization := obj.acceptSerialization,
      allowFetchTxt := obj.allowFetchTxt,
      serialization := obj.serialization,
      manifestsRequired := obj.manifestsRequired,
      manifestsAllowed := obj.manifestsAllowed,
      tagManifestsRequired := obj.tagManifestsRequired,
      tagManifestsAllowed := obj.tagManifestsAllowed,
      tagFilesAllowed := obj.tagFilesAllowed,
      bagItProfileInfo := obj.profileInfo }
  { p with tags := obj.bagInfo.foldl importBagInfoTag p.tags }

end EasyStore

namespace EasyStore

/-! ## General lemmas about the helper functions -/

/-- The length of a `flatMap` is the sum of the lengths of its pieces. -/
theorem length_flatMap {α β : Type} (l : List α) (f : α → List β) :
    (l.flatMap f).length = (l.map (fun a => (f a).length)).sum := by
  induction l with
  | nil => rfl
  | cons a rest ih => simp [List.flatMap_cons, ih]

/-- On a duplicate-free list, `firstDedup.go` with a disjoint seen set is
the identity. -/
theorem firstDedup_go_of_nodup {α : Type} [DecidableEq α] :
    ∀ (l seen : List α), l.Nodup → (∀ a ∈ l, a ∉ seen) → firstDedup.go seen l = l := by
  intro l
  induction l with
  | nil => intro seen _ _; rfl
  | cons a rest ih =>
    intro seen hn hd
    rw [List.nodup_cons] at hn
    unfold firstDedup.go
    rw [if_neg (hd a (by simp))]
    congr 1
    apply ih _ hn.2
    intro b hb
    simp only [List.mem_cons]
    push_neg
    exact ⟨fun hba => hn.1 (hba ▸ hb), hd b (by simp [hb])⟩

/-- On a duplicate-free list, `firstDedup` is the identity. -/
theorem firstDedup_eq_of_nodup {α : Type} [DecidableEq α] (l : List α) (h : l.Nodup) :
    firstDedup l = l :=
  firstDedup_go_of_nodup l [] h (by simp)

/-- In a collection with duplicate-free keys, `first` finds the value of
the unique pair with the given key. -/
theorem kvcFirst_of_nodup :
    ∀ (kv : KVC) (k v : String), (kv.map Prod.fst).Nodup → (k, v) ∈ kv →
      kvcFirst kv k = some v := by
  intro kv
  induction kv with
  | nil => intro k v _ hm; cases hm
  | cons p rest ih =>
    intro k v hn hm
    rw [List.map_cons, List.nodup_cons] at hn
    rcases List.mem_cons.mp hm with h | h
    · subst h
      simp [kvcFirst]
    · by_cases hpk : p.1 = k
      · exfalso
        apply hn.1
        rw [hpk]
        exact List.mem_map.mpr ⟨(k, v), h, rfl⟩
      · unfold kvcFirst
        rw [List.find?]
        simp only [hpk, decide_False]
        exact ih k v hn.2 h

/-- The whitespace splitter never returns an empty token list. -/
theorem splitWsCh_ne_nil : ∀ cs, splitWsCh cs ≠ [] := by
  intro cs
  cases cs with
  | nil => simp [splitWsCh]
  | cons c rest =>
    unfold splitWsCh
    by_cases h : isWsChar c
    · simp only [h, if_true]
      cases rest with
      | nil => simp
      | cons d tl =>
        by_cases hd : isWsChar d
        · simp only [hd, if_true]
          exact splitWsCh_ne_nil (d :: tl)
        · simp [hd]
    · simp only [h, if_false]
      rcases hs : splitWsCh rest with _ | ⟨t, ts⟩ <;> simp

/-- Joining a single token is the token itself. -/
theorem joinSp_single (x : List Char) : joinSp [x] = x := by
  simp [joinSp, List.intercalate]

/-- Joining at least two tokens starts with the first token and a space. -/
theorem joinSp_cons₂ (x t : List Char) (ts : List (List Char)) :
    joinSp (x :: t :: ts) = x ++ ' ' :: joinSp (t :: ts) := by
  simp [joinSp, List.intercalate, List.intersperse]

/-- A non-whitespace character is glued onto the first token of the
split of the remainder. -/
theorem splitWsCh_cons_nonws (c : Char) (cs : List Char) (h : isWsChar c = false) :
    splitWsCh (c :: cs) =
      (c :: (splitWsCh cs).headD []) :: (splitWsCh cs).tail := by
  rcases hs : splitWsCh cs with _ | ⟨t, ts⟩
  · exact absurd hs (splitWsCh_ne_nil cs)
  · conv_lhs => rw [splitWsCh.eq_def]
    simp [h, hs]

/-- A single space before a non-whitespace character opens a fresh empty
token. -/
theorem splitWsCh_space_cons (p : Char) (path : List Char) (hp : isWsChar p = false) :
    splitWsCh (' ' :: p :: path) = [] :: splitWsCh (p :: path) := by
  conv_lhs => rw [splitWsCh.eq_def]
  simp only [show isWsChar ' ' = true from rfl, if_true, hp, Bool.false_eq_true, if_false]

/-- A non-empty whitespace-free token followed by a single space splits
off as the first token. -/
theorem splitWsTokenHead :
    ∀ (tok : List Char), tok ≠ [] → (∀ c ∈ tok, isWsChar c = false) →
    ∀ (p : Char) (path : List Char), isWsChar p = false →
      splitWsCh (tok ++ ' ' :: p :: path) = tok :: splitWsCh (p :: path) := by
  intro tok
  induction tok with
  | nil => intro h; exact absurd rfl h
  | cons a tok' ih =>
    intro _ hnw p path hp
    cases tok' with
    | nil =>
      simp only [List.singleton_append]
      rw [show a :: ' ' :: p :: path = a :: (' ' :: p :: path) from rfl]
      rw [splitWsCh_cons_nonws a _ (hnw a (by simp)), splitWsCh_space_cons p path hp]
      simp
    | cons b tok'' =>
      have hrest := ih (by simp) (fun c hc => hnw c (by simp [hc])) p path hp
      rw [List.cons_append]
      rw [splitWsCh_cons_nonws a _ (hnw a (by simp)), hrest]
      simp

end EasyStore

namespace EasyStore

/-- A character list whose whitespace consists of single interior ASCII
spaces: never two whitespace characters in a row, no whitespace other
than a space, never whitespace at the end. -/
def noWsRun : List Char → Bool
  | [] => true
  | [c] => !isWsChar c
  | c :: d :: rest =>
    (if isWsChar c then c = ' ' && !isWsChar d else true) && noWsRun (d :: rest)

/-- A non-empty path that starts with a non-whitespace character and whose
interior whitespace consists of single spaces. -/
def singleSpaced (cs : List Char) : Bool :=
  match cs with
  | [] => false
  | c :: _ => !isWsChar c && noWsRun cs

/-- The tail of a `noWsRun` list again satisfies `noWsRun`. -/
theorem noWsRun_tail (c d : Char) (rest : List Char)
    (h : noWsRun (c :: d :: rest) = true) : noWsRun (d :: rest) = true := by
  unfold noWsRun at h
  exact (Bool.and_eq_true_iff.mp h).2

/-- Splitting a single-spaced list on whitespace and re-joining its
tokens with single spaces restores the list. -/
theorem noWsRun_join_back :
    ∀ (cs : List Char), cs ≠ [] → noWsRun cs = true →
      joinSp (splitWsCh cs) = cs := by
  intro cs
  induction cs with
  | nil => intro h; exact absurd rfl h
  | cons c rest ih =>
    intro _ hn
    cases rest with
    | nil =>
      have hc : isWsChar c = false := by
        unfold noWsRun at hn; simpa using hn
      rw [splitWsCh_cons_nonws c [] hc]
      simp [splitWsCh, joinSp_single]
    | cons d tl =>
      have hrec : noWsRun (d :: tl) = true := noWsRun_tail c d tl hn
      have hjoin := ih (by simp) hrec
      by_cases hc : isWsChar c
      · have hcond : (c = ' ' && !isWsChar d) = true := by
          unfold noWsRun at hn
          have := (Bool.and_eq_true_iff.mp hn).1
          simpa [hc] using this
        have hcsp : c = ' ' := by
          have := (Bool.and_eq_true_iff.mp hcond).1
          simpa using this
        have hd : isWsChar d = false := by
          have := (Bool.and_eq_true_iff.mp hcond).2
          simpa using this
        subst hcsp
        rw [splitWsCh_space_cons d tl hd]
        rcases hs : splitWsCh (d :: tl) with _ | ⟨t, ts⟩
        · exact absurd hs (splitWsCh_ne_nil _)
        · rw [joinSp_cons₂]
          simp only [List.nil_append]
          rw [← hs, hjoin]
      · have hc' : isWsChar c = false := by simpa using hc
        rw [splitWsCh_cons_nonws c _ hc']
        rcases hs : splitWsCh (d :: tl) with _ | ⟨t, ts⟩
        · exact absurd hs (splitWsCh_ne_nil _)
        · simp only [hs, List.headD_cons, List.tail_cons] at *
          cases ts with
          | nil =>
            rw [joinSp_single] at hjoin ⊢
            simp [hjoin]
          | cons t2 ts2 =>
            rw [joinSp_cons₂] at hjoin ⊢
            rw [List.cons_append, hjoin]

/-- A list with non-whitespace boundary characters is unchanged by
trimming. -/
theorem trimCh_eq_self (cs : List Char)
    (hhead : ∀ c, cs.head? = some c → isWsChar c = false)
    (hlast : ∀ c, cs.getLast? = some c → isWsChar c = false) :
    trimCh cs = cs := by
  unfold trimCh
  have h1 : cs.dropWhile isWsChar = cs := by
    cases cs with
    | nil => rfl
    | cons c rest =>
      rw [List.dropWhile_cons]
      simp [hhead c rfl]
  rw [h1]
  have h2 : cs.reverse.dropWhile isWsChar = cs.reverse := by
    rcases hr : cs.reverse with _ | ⟨c, rest⟩
    · rfl
    · rw [List.dropWhile_cons]
      have : cs.getLast? = some c := by
        rw [← List.head?_reverse, hr]; rfl
      simp [hlast c this]
  rw [h2, List.reverse_reverse]

/-- The last character of a `noWsRun` list is not whitespace. -/
theorem noWsRun_getLast :
    ∀ (cs : List Char), noWsRun cs = true → ∀ c, cs.getLast? = some c →
      isWsChar c = false := by
  intro cs
  induction cs with
  | nil => intro _ c h; cases h
  | cons a rest ih =>
    intro hn c hc
    cases rest with
    | nil =>
      simp only [List.getLast?_singleton, Option.some.injEq] at hc
      subst hc
      unfold noWsRun at hn
      simpa using hn
    | cons b tl =>
      have : (b :: tl).getLast? = some c := by
        rwa [List.getLast?_cons_cons] at hc
      exact ih (noWsRun_tail a b tl hn) c this

/-- A whitespace-free list is unchanged by trimming. -/
theorem trimCh_of_all_nonws (cs : List Char) (h : ∀ c ∈ cs, isWsChar c = false) :
    trimCh cs = cs := by
  apply trimCh_eq_self
  · intro c hc
    exact h c (by cases cs with
      | nil => cases hc
      | cons a rest => simp only [List.head?_cons, Option.some.injEq] at hc; simp [hc])
  · intro c hc
    exact h c (List.mem_of_mem_getLast? (by rw [hc]; rfl))

/-- A single-spaced list is unchanged by trimming. -/
theorem trimCh_of_singleSpaced (cs : List Char) (h : singleSpaced cs = true) :
    trimCh cs = cs := by
  rcases hcs : cs with _ | ⟨a, rest⟩
  · rfl
  · subst hcs
    unfold singleSpaced at h
    have hhd := (Bool.and_eq_true_iff.mp h).1
    have hrun := (Bool.and_eq_true_iff.mp h).2
    apply trimCh_eq_self
    · intro c hc
      simp only [List.head?_cons, Option.some.injEq] at hc
      subst hc
      simpa using hhd
    · exact noWsRun_getLast _ hrun

/-- Dropping while a predicate holds skips past a block where it holds
everywhere. -/
theorem dropWhile_append_all {p : Char → Bool} :
    ∀ (l1 l2 : List Char), (∀ c ∈ l1, p c = true) →
      (l1 ++ l2).dropWhile p = l2.dropWhile p := by
  intro l1
  induction l1 with
  | nil => intro l2 _; rfl
  | cons a rest ih =>
    intro l2 h
    rw [List.cons_append, List.dropWhile_cons]
    simp only [h a (by simp), if_true]
    exact ih l2 (fun c hc => h c (by simp [hc]))

/-- Taking while a predicate holds keeps a block where it holds
everywhere. -/
theorem takeWhile_append_all {p : Char → Bool} :
    ∀ (l1 l2 : List Char), (∀ c ∈ l1, p c = true) →
      (l1 ++ l2).takeWhile p = l1 ++ l2.takeWhile p := by
  intro l1
  induction l1 with
  | nil => intro l2 _; rfl
  | cons a rest ih =>
    intro l2 h
    rw [List.cons_append, List.takeWhile_cons]
    simp only [h a (by simp), if_true]
    rw [ih l2 (fun c hc => h c (by simp [hc])), List.cons_append]

end EasyStore

namespace EasyStore

/-! ## Lemmas about the run orchestration -/

/-- The message of a reader error event, if it is one. -/
def readerErrorMsg : ReaderEvent → Option String
  | .rerror m => some m
  | .rentry _ => none

/-- Whether a run event is an `error` event. -/
def isErrorEvent : VEvent → Bool
  | .errorEv _ => true
  | _ => false

/-- An `entry` event never touches the re-emitted error list. -/
theorem scanStep_entry_errorEvents (pathToBag : String) (s : ScanState) (rp : String) :
    (scanStep pathToBag s (.rentry rp)).errorEvents = s.errorEvents := by
  unfold scanStep
  simp only []
  repeat' split
  all_goals rfl

/-- Folding the scan handlers appends exactly the reader's error
messages, in order. -/
theorem runScanEvents_errorEvents_go :
    ∀ (events : List ReaderEvent) (pathToBag : String) (s : ScanState),
      (events.foldl (scanStep pathToBag) s).errorEvents =
        s.errorEvents ++ events.filterMap readerErrorMsg := by
  intro events
  induction events with
  | nil => intro p s; simp
  | cons ev rest ih =>
    intro p s
    rw [List.foldl_cons, ih]
    cases ev with
    | rerror m => simp [scanStep, readerErrorMsg]
    | rentry rp => simp [scanStep_entry_errorEvents, readerErrorMsg]

/-- The scan pass re-emits exactly the reader's error messages, in
order. -/
theorem runScanEvents_errorEvents (pathToBag : String) (events : List ReaderEvent) :
    (runScanEvents pathToBag events).errorEvents = events.filterMap readerErrorMsg := by
  unfold runScanEvents
  rw [runScanEvents_errorEvents_go]
  rfl

/-- When the serialization check fails it has recorded at least one
error. -/
theorem validateSerialization_false_has_errors (st : ValidatorState)
    (h : (validateSerialization st).1 = false) : (validateSerialization st).2 ≠ [] := by
  unfold validateSerialization at *
  by_cases hd : st.disableSerializationCheck
  · simp [hd] at h
  · simp only [hd, Bool.false_eq_true, if_false] at *
    split at h <;> split at h <;> simp_all <;> split at h <;> simp_all

end EasyStore

namespace EasyStore

/-! ## Claim-side definitions

The following definitions state, in executable form, what the
specification's sentences say; the claim theorems compare them with the
embedded source functions. -/

/-- The `minimatch` glob matcher restricted to literal patterns (no glob
metacharacters), where it coincides with string equality.  Used to
instantiate the abstract matcher at concrete inputs. -/
def minimatchLiteral (path pattern : String) : Bool :=
  path = pattern

/-- From the claim C2 wording: iterate over the parsed `(filename,
digest)` entries of the manifest; a missing file gives the
missing-from-bag error, and otherwise a computed digest different from
the entry's digest gives the bad-digest error. -/
def claimManifestEntryErrors (files : List BagItFileM) (manifest : BagItFileM) (kv : KVC) :
    List String :=
  let algorithm :=
    match strSplitOnChar '-' (basenameExt manifest.relDestPath ".txt") with
    | _ :: a :: _ => a
    | _ => "undefined"
  kv.flatMap fun entry =>
    match files.find? (fun f => f.relDestPath = entry.1) with
    | none => ["File '" ++ entry.1 ++ "' in " ++ manifest.relDestPath ++ " is missing from bag."]
    | some f =>
      let calculated := kvcFirst f.checksums algorithm
      if calculated = some entry.2 then []
      else ["Bad " ++ algorithm ++ " digest for '" ++ entry.1 ++ "': manifest says '" ++
            entry.2 ++ "', file digest is '" ++ calculated.getD "undefined" ++ "'."]

/-- The extraneous-payload error message. -/
def extraneousMsg (f manifest : BagItFileM) : String :=
  "Payload file " ++ f.relDestPath ++ " not found in " ++ manifest.relDestPath

/-- From the amended claim C3 wording: an error for a (payload manifest,
payload file) pair exactly when the manifest's parsed collection has no
first value for the file's path, or that first value is the empty
string. -/
def claimExtraneousPayloadErrors (st : ValidatorState) : List String :=
  (payloadManifests st).flatMap fun manifest =>
    (payloadFiles st).filterMap fun f =>
      match kvcFirst (manifest.keyValueCollection.getD []) f.relDestPath with
      | none => some (extraneousMsg f manifest)
      | some s => if s = "" then some (extraneousMsg f manifest) else none

/-- From the amended claim C6 wording: patterns that are `*` or empty are
skipped; a tag file other than `bagit.txt` is an error exactly when at
least one concrete pattern exists and the file matches none of them. -/
def claimAllowedTagFileErrors (mm : String → String → Bool) (st : ValidatorState) :
    List String :=
  (tagFiles st).filterMap fun file =>
    if file.relDestPath = "bagit.txt" then none
    else
      let concrete := st.profile.tagFilesAllowed.filter
        (fun pat => strTrim pat ≠ "" && strTrim pat ≠ "*")
      if concrete = [] then none
      else if concrete.any (fun pat => mm file.relDestPath pat) then none
      else some ("Tag file " ++ file.relDestPath ++ " is not in the list of allowed tag files.")

end EasyStore

namespace EasyStore

/-! ## The claims -/

/-- C1: the claim says the digest set for every file is the deduplicated
union of the profile-required algorithms and every manifest **and
tag-manifest** algorithm discovered during the initial scan.  The code
disagrees: `_getCryptoHashes` concatenates only
`manifestAlgorithmsFoundInBag`, so for a bag whose scan finds
`tagmanifest-sha256.txt` under a profile requiring only md5, the digest
set is `["md5"]` and sha256 is never computed, although the scan did
record it and the claimed union contains it.  This contradicts the
source's own documentation of the scan ("so it knows which checksums to
run on payload and tag files"; "the validator will later validate ALL
checksums"). -/
theorem C1_found_tagmanifest_algorithm_not_in_digest_set :
    (runScanEvents "/bags/sample"
        [.rentry "manifest-md5.txt", .rentry "tagmanifest-sha256.txt",
         .rentry "data/photo.jpg"]).tagManifestAlgs = ["sha256"] ∧
    getCryptoHashAlgorithms
      { pathToBag := "/bags/sample",
        profile := { defaultProfile with
          manifestsRequired := ["md5"], tagManifestsRequired := ["md5"] },
        manifestAlgorithmsFoundInBag :=
          (runScanEvents "/bags/sample"
            [.rentry "manifest-md5.txt", .rentry "tagmanifest-sha256.txt",
             .rentry "data/photo.jpg"]).manifestAlgs,
        tagManifestAlgorithmsFoundInBag :=
          (runScanEvents "/bags/sample"
            [.rentry "manifest-md5.txt", .rentry "tagmanifest-sha256.txt",
             .rentry "data/photo.jpg"]).tagManifestAlgs } = ["md5"] ∧
    "sha256" ∉ getCryptoHashAlgorithms
      { pathToBag := "/bags/sample",
        profile := { defaultProfile with
          manifestsRequired := ["md5"], tagManifestsRequired := ["md5"] },
        manifestAlgorithmsFoundInBag :=
          (runScanEvents "/bags/sample"
            [.rentry "manifest-md5.txt", .rentry "tagmanifest-sha256.txt",
             .rentry "data/photo.jpg"]).manifestAlgs,
        tagManifestAlgorithmsFoundInBag :=
          (runScanEvents "/bags/sample"
            [.rentry "manifest-md5.txt", .rentry "tagmanifest-sha256.txt",
             .rentry "data/photo.jpg"]).tagManifestAlgs } ∧
    "sha256" ∈ firstDedup
      ((chooseManifestAlgorithms
          { defaultProfile with
            manifestsRequired := ["md5"], tagManifestsRequired := ["md5"] } "manifest"
        ++ chooseManifestAlgorithms
          { defaultProfile with
            manifestsRequired := ["md5"], tagManifestsRequired := ["md5"] } "tagmanifest"
        ++ ((runScanEvents "/bags/sample"
              [.rentry "manifest-md5.txt", .rentry "tagmanifest-sha256.txt",
               .rentry "data/photo.jpg"]).manifestAlgs
            ++ (runScanEvents "/bags/sample"
              [.rentry "manifest-md5.txt", .rentry "tagmanifest-sha256.txt",
               .rentry "data/photo.jpg"]).tagManifestAlgs)).filter
        (fun a => a ≠ "")) := by
  decide

/-- C2 counterexample: the claim quantifies over *every* `(filename,
digest)` entry parsed from the manifest, but the code iterates the
distinct `keys()` and compares only `first(filename)`.  For a manifest
listing the same path twice with digests `aaa` then `bbb`, against a
file whose computed md5 digest is `aaa`, the code records no error,
while the claim's per-entry reading demands a bad-digest error for the
second entry (its listed digest `bbb` differs from the computed
digest). -/
theorem C2_duplicate_entry_not_checked :
    manifestEntryErrors
      [⟨"data/f.txt", 3, [("md5", "aaa")], none⟩]
      ⟨"manifest-md5.txt", 0, [],
        some [("data/f.txt", "aaa"), ("data/f.txt", "bbb")]⟩ = [] ∧
    claimManifestEntryErrors
      [⟨"data/f.txt", 3, [("md5", "aaa")], none⟩]
      ⟨"manifest-md5.txt", 0, [],
        some [("data/f.txt", "aaa"), ("data/f.txt", "bbb")]⟩
      [("data/f.txt", "aaa"), ("data/f.txt", "bbb")]
      = ["Bad md5 digest for 'data/f.txt': manifest says 'bbb', file digest is 'aaa'."] ∧
    ("data/f.txt", "bbb") ∈ ([("data/f.txt", "aaa"), ("data/f.txt", "bbb")] : KVC) ∧
    kvcFirst [("md5", "aaa")] "md5" ≠ some "bbb" := by
  decide

/-- C2 (amended): the validator checks each *distinct* filename of the
manifest once, against the manifest's *first* digest for that filename;
for every manifest whose parsed entries have duplicate-free filenames
(every well-formed manifest) this coincides with the claim's per-entry
description — the missing-from-bag error exactly when no file with that
path is in the files map, and otherwise the bad-digest error exactly
when the computed digest for the algorithm taken from the manifest's
filename differs from the digest listed in the manifest.  Entries after
the first for a repeated filename are never compared (see the
counterexample). -/
theorem C2_manifest_entry_verification (files : List BagItFileM)
    (manifest : BagItFileM) (kv : KVC)
    (hkv : manifest.keyValueCollection = some kv)
    (hnd : (kv.map Prod.fst).Nodup) :
    manifestEntryErrors files manifest = claimManifestEntryErrors files manifest kv := by
  unfold manifestEntryErrors claimManifestEntryErrors
  rw [hkv]
  simp only [Option.getD_some]
  rw [kvcKeys, firstDedup_eq_of_nodup _ hnd, List.flatMap_map]
  apply List.flatMap_congr
  intro entry hmem
  have hfirst : kvcFirst kv entry.1 = some entry.2 :=
    kvcFirst_of_nodup kv entry.1 entry.2 hnd hmem
  rw [hfirst]
  rfl

/-- Witness for C2 at a concrete input: a manifest listing one present
file with a matching digest, one present file with a wrong digest and
one missing file. -/
theorem C2_manifest_entry_verification_witness :
    manifestEntryErrors
      [⟨"data/x.txt", 3, [("md5", "aaa")], none⟩,
       ⟨"data/y.txt", 4, [("md5", "bbb")], none⟩]
      ⟨"manifest-md5.txt", 0, [],
        some [("data/x.txt", "aaa"), ("data/y.txt", "ccc"), ("data/z.txt", "ddd")]⟩ =
    claimManifestEntryErrors
      [⟨"data/x.txt", 3, [("md5", "aaa")], none⟩,
       ⟨"data/y.txt", 4, [("md5", "bbb")], none⟩]
      ⟨"manifest-md5.txt", 0, [],
        some [("data/x.txt", "aaa"), ("data/y.txt", "ccc"), ("data/z.txt", "ddd")]⟩
      [("data/x.txt", "aaa"), ("data/y.txt", "ccc"), ("data/z.txt", "ddd")] :=
  C2_manifest_entry_verification
    [⟨"data/x.txt", 3, [("md5", "aaa")], none⟩,
     ⟨"data/y.txt", 4, [("md5", "bbb")], none⟩]
    ⟨"manifest-md5.txt", 0, [],
      some [("data/x.txt", "aaa"), ("data/y.txt", "ccc"), ("data/z.txt", "ddd")]⟩
    [("data/x.txt", "aaa"), ("data/y.txt", "ccc"), ("data/z.txt", "ddd")]
    rfl (by decide)

end EasyStore

namespace EasyStore

/-- C3 counterexample: the claim says the error is recorded exactly when
the file's path does not appear as a key in the manifest's parsed
collection.  In the code the guard is the JavaScript truthiness test on
`first(path)`, so a manifest entry whose digest parsed as the empty
string (a line beginning with whitespace) produces the error even though
the path appears as a key. -/
theorem C3_error_recorded_despite_key_present :
    validateNoExtraneousPayloadFiles
      { pathToBag := "/bags/b", profile := defaultProfile,
        files := [
          { relDestPath := "manifest-sha256.txt",
            keyValueCollection := some [("data/x.txt", "")] },
          { relDestPath := "data/x.txt", checksums := [("sha256", "abc")] } ] }
      = ["Payload file data/x.txt not found in manifest-sha256.txt"] ∧
    "data/x.txt" ∈ kvcKeys [("data/x.txt", "")] := by
  decide

/-- C3 (amended): for every payload manifest and payload file the error
is recorded exactly when the manifest's first value for the file's path
is missing **or empty**, and the number of errors is the number of such
(manifest, file) pairs — in particular one extra payload file against
one payload manifest yields exactly one error from this check. -/
theorem C3_extraneous_payload_characterization (st : ValidatorState) :
    validateNoExtraneousPayloadFiles st = claimExtraneousPayloadErrors st ∧
    (validateNoExtraneousPayloadFiles st).length =
      ((payloadManifests st).map (fun manifest =>
        (payloadFiles st).countP (fun f =>
          let v := kvcFirst (manifest.keyValueCollection.getD []) f.relDestPath
          v = none || v = some ""))).sum := by
  have heq : validateNoExtraneousPayloadFiles st = claimExtraneousPayloadErrors st := by
    unfold validateNoExtraneousPayloadFiles claimExtraneousPayloadErrors
    apply List.flatMap_congr
    intro manifest _
    apply List.filterMap_congr
    intro f _
    rcases hv : kvcFirst (manifest.keyValueCollection.getD []) f.relDestPath with _ | s
    · simp [extraneousMsg]
    · simp [extraneousMsg, Option.some.injEq]
  refine ⟨heq, ?_⟩
  unfold validateNoExtraneousPayloadFiles
  rw [length_flatMap]
  congr 1
  apply List.map_congr_left
  intro manifest _
  rw [List.length_filterMap_eq_countP]
  apply List.countP_congr
  intro f _
  rcases hv : kvcFirst (manifest.keyValueCollection.getD []) f.relDestPath with _ | s <;>
    simp [hv]

end EasyStore

namespace EasyStore

/-- A run environment whose bag exists, whose profile and serialization
pass, and whose content is missing the required manifest and tag files:
every failure is found by the verification phase, none by the gates. -/
def contentFailureEnv : RunEnv :=
  { pathToBag := "/bags/bag1", profile := defaultProfile,
    scanEvents := [.rentry "data/f.txt"], filesRead := [] }

/-- C4 counterexample: the claim says every non-terminal validation
failure is appended to the errors list **and emitted as an `error`
event**.  On a bag missing its required manifest and tag files the run
accumulates errors and completes with `end`, but emits no `error` event
at all. -/
theorem C4_content_failures_emit_no_error_event :
    (runValidation minimatchLiteral contentFailureEnv).errors ≠ [] ∧
    (runValidation minimatchLiteral contentFailureEnv).events.filter isErrorEvent = [] ∧
    (runValidation minimatchLiteral contentFailureEnv).contentRan = true ∧
    (runValidation minimatchLiteral contentFailureEnv).events.getLast? = some .endEv := by
  decide

/-- C4 (amended): a missing bag path, a failed profile self-check or a
failed serialization check is terminal — no scan, read or content phase
runs, and the run still emits `end`.  In every other run the three
phases run, the run emits `end`, every verification failure is
accumulated into the errors list but the only `error` events are
re-emitted reader errors; and within the verification phase an
untar-directory mismatch records its error and skips all remaining
content checks. -/
theorem C4_error_policy (mm : String → String → Bool) (env : RunEnv) :
    ((env.pathExists = false ∨ validateProfileErrors env.profile ≠ [] ∨
        (validateSerialization (initialState env)).1 = false) →
      (runValidation mm env).scanRan = false ∧
      (runValidation mm env).readRan = false ∧
      (runValidation mm env).contentRan = false ∧
      (runValidation mm env).events.getLast? = some .endEv) ∧
    (env.pathExists = true → validateProfileErrors env.profile = [] →
        (validateSerialization (initialState env)).1 = true →
      (runValidation mm env).scanRan = true ∧
      (runValidation mm env).readRan = true ∧
      (runValidation mm env).contentRan = true ∧
      (runValidation mm env).events.getLast? = some .endEv ∧
      (runValidation mm env).errors =
        (validateSerialization (initialState env)).2 ++
          validateFormatAndContents mm (gatheredState env) ∧
      (runValidation mm env).events.filter isErrorEvent =
        ((runScanEvents env.pathToBag env.scanEvents).errorEvents ++ env.readErrors).map
          .errorEv) ∧
    (∀ st : ValidatorState, (validateUntarDirectory st).1 = false →
      validateFormatAndContents mm st = (validateUntarDirectory st).2) := by
  refine ⟨?_, ?_, ?_⟩
  · intro h
    unfold runValidation
    by_cases h1 : env.pathExists
    · simp only [h1, Bool.not_true, Bool.false_eq_true, if_false]
      by_cases h2 : validateProfileErrors env.profile = []
      · have h3 : (validateSerialization (initialState env)).1 = false := by
          rcases h with h | h | h
          · exact absurd h1 (by simp [h])
          · exact absurd h2 h
          · exact h
        simp [h2, h3, List.getLast?_concat]
      · simp [h2, List.getLast?_concat]
    · simp only [Bool.not_eq_true] at h1
      simp [h1, List.getLast?_concat]
  · intro h1 h2 h3
    have hres : runValidation mm env =
        ⟨(validateSerialization (initialState env)).2 ++
            validateFormatAndContents mm (gatheredState env),
          [VEvent.validateStart] ++ [.task "start"]
            ++ (runScanEvents env.pathToBag env.scanEvents).errorEvents.map .errorEv
            ++ env.readErrors.map .errorEv ++ [.task "read"] ++ [.endEv],
          true, true, true⟩ := by
      unfold runValidation
      simp [h1, h2, h3]
    rw [hres]
    refine ⟨rfl, rfl, rfl, ?_, rfl, ?_⟩
    · exact List.getLast?_concat _
    · simp [List.filter_append, List.filter_map,
        show (isErrorEvent ∘ VEvent.errorEv) = fun _ => true from rfl,
        show isErrorEvent VEvent.validateStart = false from rfl,
        show isErrorEvent (VEvent.task "start") = false from rfl,
        show isErrorEvent (VEvent.task "read") = false from rfl,
        show isErrorEvent VEvent.endEv = false from rfl]
  · intro st h
    unfold validateFormatAndContents
    simp [h]

/-- Witness for C4 at a concrete input: the non-terminal branch of the
policy applied to a run whose gates all pass. -/
theorem C4_error_policy_witness :
    (runValidation minimatchLiteral contentFailureEnv).scanRan = true ∧
    (runValidation minimatchLiteral contentFailureEnv).readRan = true ∧
    (runValidation minimatchLiteral contentFailureEnv).events.getLast? = some .endEv :=
  have h := (C4_error_policy minimatchLiteral contentFailureEnv).2.1
    rfl (by decide) (by decide)
  ⟨h.1, h.2.1, h.2.2.2.1⟩

end EasyStore

namespace EasyStore

/-- A run environment whose scan reader emits an error before its
entries and its `end`. -/
def readerErrorEnv : RunEnv :=
  { pathToBag := "/bags/bag1", profile := defaultProfile,
    scanEvents := [.rerror "tar read error", .rentry "data/f.txt"],
    filesRead := [] }

/-- C5 counterexample: the claim says a reader error is recorded in the
validator's errors list and terminates the run.  In the code the handler
only re-emits the error as an `error` event: after a reader error the
message is absent from the errors list, the run continues through the
content phase and still emits `end`. -/
theorem C5_reader_error_not_recorded_run_continues :
    ("tar read error" ∉ (runValidation minimatchLiteral readerErrorEnv).errors) ∧
    (VEvent.errorEv "tar read error" ∈ (runValidation minimatchLiteral readerErrorEnv).events) ∧
    (runValidation minimatchLiteral readerErrorEnv).contentRan = true ∧
    (runValidation minimatchLiteral readerErrorEnv).events.getLast? = some .endEv := by
  decide

/-- C5 (amended): in every run that reaches the reading phases, each
reader error is re-emitted as a validator `error` event, in order; the
errors list consists only of gate and verification errors (reader errors
are never appended to it), and the run is not terminated — the content
phase runs and `end` is emitted. -/
theorem C5_reader_errors_reemitted (mm : String → String → Bool) (env : RunEnv)
    (h1 : env.pathExists = true)
    (h2 : validateProfileErrors env.profile = [])
    (h3 : (validateSerialization (initialState env)).1 = true) :
    (runValidation mm env).events.filter isErrorEvent =
      (env.scanEvents.filterMap readerErrorMsg ++ env.readErrors).map .errorEv ∧
    (runValidation mm env).errors =
      (validateSerialization (initialState env)).2 ++
        validateFormatAndContents mm (gatheredState env) ∧
    (runValidation mm env).contentRan = true ∧
    (runValidation mm env).events.getLast? = some .endEv := by
  have hres : runValidation mm env =
      ⟨(validateSerialization (initialState env)).2 ++
          validateFormatAndContents mm (gatheredState env),
        [VEvent.validateStart] ++ [.task "start"]
          ++ (runScanEvents env.pathToBag env.scanEvents).errorEvents.map .errorEv
          ++ env.readErrors.map .errorEv ++ [.task "read"] ++ [.endEv],
        true, true, true⟩ := by
    unfold runValidation
    simp [h1, h2, h3]
  rw [hres]
  refine ⟨?_, rfl, rfl, ?_⟩
  · rw [runScanEvents_errorEvents]
    simp [List.filter_append, List.filter_map,
      show (isErrorEvent ∘ VEvent.errorEv) = fun _ => true from rfl,
      show isErrorEvent VEvent.validateStart = false from rfl,
      show isErrorEvent (VEvent.task "start") = false from rfl,
      show isErrorEvent (VEvent.task "read") = false from rfl,
      show isErrorEvent VEvent.endEv = false from rfl]
  · exact List.getLast?_concat _

/-- Witness for C5 at a concrete input: the run with a scan reader error
re-emits exactly that error and still finishes. -/
theorem C5_reader_errors_reemitted_witness :
    (runValidation minimatchLiteral readerErrorEnv).events.filter isErrorEvent =
      (readerErrorEnv.scanEvents.filterMap readerErrorMsg ++ readerErrorEnv.readErrors).map
        .errorEv ∧
    (runValidation minimatchLiteral readerErrorEnv).contentRan = true :=
  have h := C5_reader_errors_reemitted minimatchLiteral readerErrorEnv
    rfl (by decide) (by decide)
  ⟨h.1, h.2.2.1⟩

end EasyStore

namespace EasyStore

/-- C6 counterexample: the claim says a `*` (or empty) pattern in
`tagFilesAllowed` accepts any tag file, short-circuiting the check.  In
the code such a pattern is merely skipped: with `["*", "custom/a.txt"]`
the tag file `custom/b.txt` is still tested against the concrete pattern
and recorded as an error, although `*` is in the list.  (On these
literal patterns `minimatch` is string equality.) -/
theorem C6_star_pattern_does_not_accept :
    validateAllowedTagFiles minimatchLiteral
      { pathToBag := "/bags/b",
        profile := { defaultProfile with tagFilesAllowed := ["*", "custom/a.txt"] },
        files := [{ relDestPath := "custom/b.txt" }] }
      = ["Tag file custom/b.txt is not in the list of allowed tag files."] ∧
    "*" ∈ ({ defaultProfile with
        tagFilesAllowed := ["*", "custom/a.txt"] } : BagItProfile).tagFilesAllowed := by
  decide

/-- C6 (amended): for every matcher and validator state, the recorded
tag-file errors are exactly those of the claim-side description in which
`*` and empty patterns are skipped (not short-circuited): a tag file
other than `bagit.txt` errors exactly when at least one concrete pattern
was tested and none matched. -/
theorem C6_allowed_tag_files_characterization (mm : String → String → Bool)
    (st : ValidatorState) :
    validateAllowedTagFiles mm st = claimAllowedTagFileErrors mm st := by
  unfold validateAllowedTagFiles claimAllowedTagFileErrors
  apply List.filterMap_congr
  intro file _
  by_cases hb : file.relDestPath = "bagit.txt"
  · simp [hb]
  · simp only [hb, if_false]
    have hfilter : st.profile.tagFilesAllowed.filter
        (fun pat => !(utilIsEmpty pat || strTrim pat = "*")) =
        st.profile.tagFilesAllowed.filter
        (fun pat => strTrim pat ≠ "" && strTrim pat ≠ "*") := by
      apply List.filter_congr
      intro pat _
      by_cases h1 : strTrim pat = "" <;> by_cases h2 : strTrim pat = "*" <;>
        simp [utilIsEmpty, h1, h2]
    rw [hfilter]
    set concrete := st.profile.tagFilesAllowed.filter
      (fun pat => strTrim pat ≠ "" && strTrim pat ≠ "*") with hc
    by_cases hemp : concrete = []
    · simp [hemp]
    · by_cases hany : concrete.any (fun pat => mm file.relDestPath pat)
      · simp [hemp, hany]
      · simp [hemp, hany]

end EasyStore

namespace EasyStore

/-- C7: when `bag-info.txt` is present and parsed and carries a
(non-empty) `Payload-Oxum` value `<bytes>.<files>`, the check records
one error exactly when the file count disagrees with the number of
payload files and one error exactly when the byte count disagrees with
their summed sizes; when the tag is absent no oxum error is recorded. -/
theorem C7_payload_oxum_verification :
    (∀ (st : ValidatorState) (bagInfo : BagItFileM) (kv : KVC) (oxum bs fs : String)
        (b f : Int),
      findFile st "bag-info.txt" = some bagInfo →
      bagInfo.keyValueCollection = some kv →
      kvcFirst kv "Payload-Oxum" = some oxum →
      oxum ≠ "" →
      strSplitOnChar '.' oxum = [bs, fs] →
      parseInt10 bs = some b →
      parseInt10 fs = some f →
      validatePayloadOxum st =
        (if f ≠ ((payloadFiles st).length : Int) then
          ["Payload-Oxum says there should be " ++ toString f ++
           " files in the payload, but validator found " ++
           toString (payloadFiles st).length ++ "."]
         else [])
        ++ (if b ≠ (((payloadFiles st).map (·.size)).sum : Int) then
          ["Payload-Oxum says there should be " ++ toString b ++
           " bytes in the payload, but validator found " ++
           toString ((payloadFiles st).map (·.size)).sum ++ "."]
         else [])) ∧
    (∀ (st : ValidatorState) (bagInfo : BagItFileM) (kv : KVC),
      findFile st "bag-info.txt" = some bagInfo →
      bagInfo.keyValueCollection = some kv →
      kvcFirst kv "Payload-Oxum" = none →
      validatePayloadOxum st = []) := by
  constructor
  · intro st bagInfo kv oxum bs fs b f h1 h2 h3 h4 h5 h6 h7
    unfold validatePayloadOxum
    simp only [h1, h2, h3, if_neg h4, h5]
    simp [jsParseIntOpt, h6, h7, renderNum, Nat.cast_list_sum, List.map_map, Function.comp]
    rfl
  · intro st bagInfo kv h1 h2 h3
    unfold validatePayloadOxum
    simp only [h1, h2, h3]

/-- Witness for C7 at a concrete input: the S1 scenario — an oxum of
`1.1` on a payload of two files totalling 15 bytes yields exactly the
two errors. -/
theorem C7_payload_oxum_verification_witness :
    validatePayloadOxum
      { pathToBag := "/bags/b", profile := defaultProfile,
        files := [⟨"bag-info.txt", 0, [], some [("Payload-Oxum", "1.1")]⟩,
                  ⟨"data/a.txt", 10, [], none⟩,
                  ⟨"data/b.txt", 5, [], none⟩] } =
      ["Payload-Oxum says there should be 1 files in the payload, but validator found 2.",
       "Payload-Oxum says there should be 1 bytes in the payload, but validator found 15."] :=
  have h := C7_payload_oxum_verification.1
    { pathToBag := "/bags/b", profile := defaultProfile,
      files := [⟨"bag-info.txt", 0, [], some [("Payload-Oxum", "1.1")]⟩,
                ⟨"data/a.txt", 10, [], none⟩,
                ⟨"data/b.txt", 5, [], none⟩] }
    ⟨"bag-info.txt", 0, [], some [("Payload-Oxum", "1.1")]⟩
    [("Payload-Oxum", "1.1")] "1.1" "1" "1" 1 1
    (by decide) rfl (by decide) (by decide) (by decide) (by decide) (by decide)
  h.trans (by decide)

end EasyStore

namespace EasyStore

/-- C8 counterexample: the claim says the relative-path key is preserved
exactly as written.  The parser splits the line on whitespace runs and
re-joins with single spaces, so a path containing a double space is
recorded with the run collapsed: for the line
`abc data/a  b.txt` the recorded key differs from everything after the
first whitespace run. -/
theorem C8_whitespace_run_collapsed :
    parseManifest "abc data/a  b.txt\n" = [("data/a b.txt", "abc")] ∧
    specPathAfterFirstWsRun ("abc data/a  b.txt").toList = ("data/a  b.txt").toList ∧
    ("data/a b.txt" : String).toList ≠ ("data/a  b.txt").toList := by
  decide

/-- C8 (amended): for every complete line consisting of a non-empty
whitespace-free digest token, one space, and a path whose interior
whitespace consists of single spaces, the parser records exactly the
first token as the digest and the path exactly as written as the key —
which then coincides with the spec's "first token" and "everything after
the first whitespace run"; paths violating that shape have their
whitespace runs collapsed to single spaces (see the counterexample). -/
theorem C8_manifest_line_tokenization (tok path : List Char)
    (htok : tok ≠ []) (hnw : ∀ c ∈ tok, isWsChar c = false)
    (hpath : singleSpaced path = true) :
    manifestLineEntry (String.mk (tok ++ ' ' :: path)) = (String.mk path, String.mk tok) ∧
    specPathAfterFirstWsRun (tok ++ ' ' :: path) = path ∧
    specFirstToken (tok ++ ' ' :: path) = tok := by
  rcases hp : path with _ | ⟨p, rest⟩
  · rw [hp] at hpath; cases hpath
  · subst hp
    have hphead : isWsChar p = false := by
      unfold singleSpaced at hpath
      simpa using (Bool.and_eq_true_iff.mp hpath).1
    have hrun : noWsRun (p :: rest) = true := by
      unfold singleSpaced at hpath
      exact (Bool.and_eq_true_iff.mp hpath).2
    have hsplit := splitWsTokenHead tok htok hnw p rest hphead
    refine ⟨?_, ?_, ?_⟩
    · unfold manifestLineEntry
      have htl : (String.mk (tok ++ ' ' :: p :: rest)).toList = tok ++ ' ' :: p :: rest := rfl
      rw [htl, hsplit]
      simp only []
      have hjoin : joinSp (splitWsCh (p :: rest)) = p :: rest :=
        noWsRun_join_back (p :: rest) (by simp) hrun
      rw [hjoin]
      rw [trimCh_of_singleSpaced (p :: rest) hpath, trimCh_of_all_nonws tok hnw]
    · unfold specPathAfterFirstWsRun
      rw [dropWhile_append_all tok (' ' :: p :: rest) (fun c hc => by simp [hnw c hc])]
      rw [List.dropWhile_cons]
      simp only [show (!isWsChar ' ') = false from rfl, Bool.false_eq_true, if_false]
      rw [List.dropWhile_cons]
      simp [hphead, show isWsChar ' ' = true from rfl]
    · unfold specFirstToken
      rw [takeWhile_append_all tok (' ' :: p :: rest) (fun c hc => by simp [hnw c hc])]
      rw [List.takeWhile_cons]
      simp [show (!isWsChar ' ') = false from rfl]

/-- Witness for C8 at a concrete input: a digest and a path with one
interior (single) space. -/
theorem C8_manifest_line_tokenization_witness :
    manifestLineEntry (String.mk (("abc").toList ++ ' ' :: ("data/a b.txt").toList)) =
      (String.mk ("data/a b.txt").toList, String.mk ("abc").toList) ∧
    specPathAfterFirstWsRun (("abc").toList ++ ' ' :: ("data/a b.txt").toList) =
      ("data/a b.txt").toList ∧
    specFirstToken (("abc").toList ++ ' ' :: ("data/a b.txt").toList) = ("abc").toList :=
  C8_manifest_line_tokenization ("abc").toList ("data/a b.txt").toList
    (by decide) (by decide) (by decide)

end EasyStore

namespace EasyStore

/-- A standard-schema profile object using only features expressible in
the standard schema, with a `Bagging-Software` tag whose enumeration is
empty. -/
def stdObjFixture : StdObj :=
  { acceptBagItVersion := ["0.97", "1.0"],
    acceptSerialization := ["application/tar"],
    allowFetchTxt := false,
    serialization := "required",
    manifestsRequired := ["md5"],
    manifestsAllowed := DIGEST_ALGORITHMS,
    tagManifestsRequired := [],
    tagManifestsAllowed := DIGEST_ALGORITHMS,
    tagFilesAllowed := ["*"],
    profileInfo := { bagItProfileIdentifier := "https://example.org/profile.json",
                     externalDescription := "Example profile" },
    bagInfo := [("Source-Organization", { required := true }),
                ("Bagging-Software", { required := false })],
    tagFilesRequired := [] }

/-- C9 counterexample: `import(export(P)) == P` fails even for a profile
`P` in the image of `import` whose tags all live in `bagit.txt` /
`bag-info.txt` and whose `defaultValue`s come only from enumerations of
size 1: the export overwrites the `Bagging-Software` values with
`["DART", "TRAD"]`, so the re-imported profile differs from `P`. -/
theorem C9_roundtrip_not_identity :
    (profileToStandardObject (profileFromStandardObject stdObjFixture)).map
        (fun r => profileFromStandardObject r.1)
      ≠ some (profileFromStandardObject stdObjFixture) ∧
    (profileFromStandardObject stdObjFixture).tags.all
      (fun t => t.tagFile = "bagit.txt" || t.tagFile = "bag-info.txt") = true ∧
    (profileFromStandardObject stdObjFixture).tags.all
      (fun t => t.defaultValue = none || t.values.length = 1) = true := by
  decide

/-- C9 (amended): the round trip is not the identity on profiles, but
for every profile the export can process (one having a
`Bagging-Software` tag), importing the export restores all top-level
fields and the profile-info block exactly, while `name` becomes the
profile-info external description and `description` the localized
"Imported from" sentence; the tag list is not restored in general (the
counterexample shows `Bagging-Software`'s values arrive as
`["DART", "TRAD"]`). -/
theorem C9_roundtrip_top_level_fields (p : BagItProfile) (o : StdObj) (p' : BagItProfile)
    (h : profileToStandardObject p = some (o, p')) :
    (profileFromStandardObject o).acceptBagItVersion = p.acceptBagItVersion ∧
    (profileFromStandardObject o).acceptSerialization = p.acceptSerialization ∧
    (profileFromStandardObject o).allowFetchTxt = p.allowFetchTxt ∧
    (profileFromStandardObject o).serialization = p.serialization ∧
    (profileFromStandardObject o).manifestsRequired = p.manifestsRequired ∧
    (profileFromStandardObject o).manifestsAllowed = p.manifestsAllowed ∧
    (profileFromStandardObject o).tagManifestsRequired = p.tagManifestsRequired ∧
    (profileFromStandardObject o).tagManifestsAllowed = p.tagManifestsAllowed ∧
    (profileFromStandardObject o).tagFilesAllowed = p.tagFilesAllowed ∧
    (profileFromStandardObject o).bagItProfileInfo = p.bagItProfileInfo ∧
    (profileFromStandardObject o).name = p.bagItProfileInfo.externalDescription ∧
    (profileFromStandardObject o).description =
      "Imported from " ++ p.bagItProfileInfo.bagItProfileIdentifier := by
  unfold profileToStandardObject at h
  rcases hbs : firstMatchingTagByName p "Bagging-Software" with _ | t
  · rw [hbs] at h; cases h
  · rw [hbs] at h
    simp only [Option.some.injEq, Prod.mk.injEq] at h
    obtain ⟨ho, _⟩ := h
    subst ho
    unfold profileFromStandardObject
    simp

/-- The profile used in the C9 witness: the default profile with a
single `Bagging-Software` tag definition. -/
def roundtripWitnessProfile : BagItProfile :=
  { defaultProfile with tags := [{ tagFile := "bag-info.txt", tagName := "Bagging-Software" }] }

/-- The standard object that exporting `roundtripWitnessProfile`
produces. -/
def roundtripWitnessStd : StdObj :=
  { acceptBagItVersion := ["0.97", "1.0"],
    acceptSerialization := ["application/tar"],
    allowFetchTxt := false,
    serialization := "optional",
    manifestsRequired := ["sha256"],
    manifestsAllowed := DIGEST_ALGORITHMS,
    tagManifestsRequired := [],
    tagManifestsAllowed := DIGEST_ALGORITHMS,
    tagFilesAllowed := ["*"],
    profileInfo := {},
    bagInfo := [("Bagging-Software", { required := false, values := some ["DART", "TRAD"] })],
    tagFilesRequired := [] }

/-- The mutated profile the export leaves behind for
`roundtripWitnessProfile`. -/
def roundtripWitnessMutated : BagItProfile :=
  { defaultProfile with
    tags := [{ tagFile := "bag-info.txt", tagName := "Bagging-Software",
               values := ["DART", "TRAD"] }] }

/-- Witness for C9 at a concrete input: the top-level fields of the
default-like witness profile survive the round trip. -/
theorem C9_roundtrip_top_level_fields_witness :
    (profileFromStandardObject roundtripWitnessStd).acceptBagItVersion =
      roundtripWitnessProfile.acceptBagItVersion ∧
    (profileFromStandardObject roundtripWitnessStd).acceptSerialization =
      roundtripWitnessProfile.acceptSerialization ∧
    (profileFromStandardObject roundtripWitnessStd).allowFetchTxt =
      roundtripWitnessProfile.allowFetchTxt ∧
    (profileFromStandardObject roundtripWitnessStd).serialization =
      roundtripWitnessProfile.serialization ∧
    (profileFromStandardObject roundtripWitnessStd).manifestsRequired =
      roundtripWitnessProfile.manifestsRequired ∧
    (profileFromStandardObject roundtripWitnessStd).manifestsAllowed =
      roundtripWitnessProfile.manifestsAllowed ∧
    (profileFromStandardObject roundtripWitnessStd).tagManifestsRequired =
      roundtripWitnessProfile.tagManifestsRequired ∧
    (profileFromStandardObject roundtripWitnessStd).tagManifestsAllowed =
      roundtripWitnessProfile.tagManifestsAllowed ∧
    (profileFromStandardObject roundtripWitnessStd).tagFilesAllowed =
      roundtripWitnessProfile.tagFilesAllowed ∧
    (profileFromStandardObject roundtripWitnessStd).bagItProfileInfo =
      roundtripWitnessProfile.bagItProfileInfo ∧
    (profileFromStandardObject roundtripWitnessStd).name =
      roundtripWitnessProfile.bagItProfileInfo.externalDescription ∧
    (profileFromStandardObject roundtripWitnessStd).description =
      "Imported from " ++ roundtripWitnessProfile.bagItProfileInfo.bagItProfileIdentifier :=
  C9_roundtrip_top_level_fields roundtripWitnessProfile roundtripWitnessStd
    roundtripWitnessMutated (by decide)

/-- C10: exporting a profile to the standard JSON form is not read-only:
on the default profile, `profileToStandardObject` overwrites the values
list of the profile's `Bagging-Software` tag definition with
`["DART", "TRAD"]`, so the profile it returns alongside the output
object differs from the profile it was given. -/
theorem C10_export_mutates_input_profile :
    (profileToStandardObject defaultProfile).map Prod.snd ≠ some defaultProfile ∧
    (profileToStandardObject defaultProfile).map
      (fun r => (r.2.tags.filter (fun t => t.tagName = "Bagging-Software")).map
        (fun t => t.values))
      = some [["DART", "TRAD"]] ∧
    (defaultProfile.tags.filter (fun t => t.tagName = "Bagging-Software")).map
      (fun t => t.values) = [[]] := by
  decide

end EasyStore
